import Mathlib

/-!
Shallow embedding of the agrippa asynchronous I/O runtime core
(src/runtime.rs, src/io_uring_util.rs, src/verbs_util.rs, src/verbs.rs,
src/tcp.rs), together with theorems settling the specification claims.

Field and constructor names follow the Rust source where Lean allows it,
including the source's own spellings (`Inital`, `Cancled`).
-/

namespace Agrippa

/-- runtime.rs `Priority`: High = 0, Normal = 1, Low = 2. -/
inductive Priority where
  | High
  | Normal
  | Low
deriving DecidableEq, Repr

/-- The discriminant value `task.priority as usize` used to index the queue bands. -/
def Priority.idx : Priority → Nat
  | .High => 0
  | .Normal => 1
  | .Low => 2

/-- runtime.rs `Error`: the six error kinds. `Io` carries the OS errno
(the source wraps `std::io::Error::last_os_error()`; we model the errno by
the failing call's negative return value). -/
inductive Error where
  | Io (errno : Int)
  | Cancel
  | Timeout
  | Eof
  | Internal (msg : String)
  | NulError
  | Boxed
deriving DecidableEq, Repr

/-- runtime.rs `TaskState` (source spellings kept). `UringDone` carries
`cqe.res`, the completion result stored by the reactor. -/
inductive TaskState where
  | Inital
  | Cancled
  | Timeouted
  | UringWaiting
  | UringCanceling
  | UringTimeouting
  | UringDone (res : Int)
deriving DecidableEq, Repr

/-- runtime.rs `Task::cancel`: the state transition performed on the task.
In `UringWaiting` the call first emits an async-cancel SQE via
`io_uring_cancel`, which can fail; `cancelSubmitOk` is that call's outcome.
On failure the `?` operator returns before `state.set`, leaving the state
unchanged, which we model as `none`. -/
def cancelStep (cancelSubmitOk : Bool) (s : TaskState) : Option TaskState :=
  match s with
  | .Inital => some .Cancled
  | .UringWaiting =>
      if cancelSubmitOk then some .UringCanceling else none
  | .UringDone _ => some .Cancled
  | v => some v

/-- runtime.rs `Task::timeout`: identical shape to `cancel`, targeting the
timeout states. -/
def timeoutStep (cancelSubmitOk : Bool) (s : TaskState) : Option TaskState :=
  match s with
  | .Inital => some .Timeouted
  | .UringWaiting =>
      if cancelSubmitOk then some .UringTimeouting else none
  | .UringDone _ => some .Timeouted
  | v => some v

/-- runtime.rs `Reactor::run`, CQE dispatch (lines 394-401): the state
transition applied to the task reconstituted from `cqe.user_data` when a
completion with result `res` arrives. Any other state hits the
`panic!`-style abort in the source, modelled as `none`. -/
def uringCqeStep (res : Int) (s : TaskState) : Option TaskState :=
  match s with
  | .UringWaiting => some (.UringDone res)
  | .UringCanceling => some .Cancled
  | .UringTimeouting => some .Timeouted
  | _ => none

/-- What a computation observes when it is polled after its operation has
been driven by the reactor. -/
inductive TaskObs where
  | pendingObs
  | success (res : Int)
  | osError (errno : Int)
  | cancelled
  | timedOut
deriving DecidableEq, Repr

/-- Modelled from the spec: the completion observation of a task state.
The `io_uring_poll_impl` present in src/io_uring_util.rs reads a per-task
result slot (`ring_result`, sentinel `NOT_DONE`) whose declaration and
uring-side writer are absent from src — the reactor in src/runtime.rs
stores the completion in `TaskState::UringDone(res)` instead, and
`Error::Cancel` / `Error::Timeout` are never constructed anywhere in src.
Following the spec's state table (§4.2, §5): a completed operation whose
stored result is negative is an OS error and otherwise a success (this is
exactly `io_uring_poll_impl`'s Sent-arm test `res < 0`); the terminal
`Cancled` / `Timeouted` states observe the Cancelled / Timeout errors; all
other states are still pending. -/
def observeState : TaskState → TaskObs
  | .UringDone res => if res < 0 then .osError (-res) else .success res
  | .Cancled => .cancelled
  | .Timeouted => .timedOut
  | .Inital => .pendingObs
  | .UringWaiting => .pendingObs
  | .UringCanceling => .pendingObs
  | .UringTimeouting => .pendingObs

/-- States in which a cancel or timeout request has been absorbed: the
task is marked cancelled/timed-out, or an async-cancel is in flight. -/
def isCancelRequested (s : TaskState) : Bool :=
  match s with
  | .Cancled => true
  | .Timeouted => true
  | .UringCanceling => true
  | .UringTimeouting => true
  | _ => false

/-! ## Ready queue (runtime.rs `TaskQueue`) -/

/-- A queued computation: an identity plus the priority assigned at spawn
(immutable thereafter). -/
structure QTask where
  id : Nat
  priority : Priority
deriving DecidableEq, Repr

/-- runtime.rs `TaskQueue`: `qs: [VecDeque<TaskRef>; 3]`, one FIFO band per
priority. Band 0 = High, band 1 = Normal, band 2 = Low. -/
structure TaskQueue where
  q0 : List QTask
  q1 : List QTask
  q2 : List QTask
deriving DecidableEq, Repr

/-- `TaskQueue::new()`. -/
def TaskQueue.init : TaskQueue := ⟨[], [], []⟩

/-- The band a priority indexes (`self.qs[task.priority as usize]`). -/
def TaskQueue.band (q : TaskQueue) : Priority → List QTask
  | .High => q.q0
  | .Normal => q.q1
  | .Low => q.q2

/-- `TaskQueue::push`: `self.qs[task.priority as usize].push_back(task)`. -/
def TaskQueue.push (q : TaskQueue) (t : QTask) : TaskQueue :=
  match t.priority with
  | .High => { q with q0 := q.q0 ++ [t] }
  | .Normal => { q with q1 := q.q1 ++ [t] }
  | .Low => { q with q2 := q.q2 ++ [t] }

/-- `TaskQueue::pop`: iterate the bands in order 0,1,2 and pop the front of
the first non-empty one. -/
def TaskQueue.pop (q : TaskQueue) : Option (QTask × TaskQueue) :=
  match q.q0 with
  | t :: rest => some (t, { q with q0 := rest })
  | [] =>
    match q.q1 with
    | t :: rest => some (t, { q with q1 := rest })
    | [] =>
      match q.q2 with
      | t :: rest => some (t, { q with q2 := rest })
      | [] => none

/-- A client interaction with the ready queue. -/
inductive QOp where
  | push (t : QTask)
  | pop
deriving Repr

/-- Run a sequence of pushes and pops against a queue, collecting the
popped computations in order. -/
def runQOps (q : TaskQueue) : List QOp → TaskQueue × List QTask
  | [] => (q, [])
  | .push t :: rest => runQOps (q.push t) rest
  | .pop :: rest =>
    match q.pop with
    | none => runQOps q rest
    | some (t, q2) =>
      let r := runQOps q2 rest
      (r.1, t :: r.2)

/-- The pushes of band `p` in an operation sequence, in order. -/
def pushedOf (p : Priority) : List QOp → List QTask
  | [] => []
  | .push t :: rest => if t.priority = p then t :: pushedOf p rest else pushedOf p rest
  | .pop :: rest => pushedOf p rest

/-- The tasks of priority `p` in a list, in order. -/
def popsOf (p : Priority) : List QTask → List QTask
  | [] => []
  | t :: rest => if t.priority = p then t :: popsOf p rest else popsOf p rest

/-- Every queued task sits in the band of its own priority (true of every
queue reachable through `push`/`pop`). -/
def TaskQueue.wellFormed (q : TaskQueue) : Prop :=
  (∀ t ∈ q.q0, t.priority = .High) ∧ (∀ t ∈ q.q1, t.priority = .Normal) ∧
    (∀ t ∈ q.q2, t.priority = .Low)

/-! ## SQE dispatcher (runtime.rs `io_uring_get_sqe_submit`) -/

/-- The submission-queue state of the kernel ring that
`io_uring_get_sqe` / `io_uring_submit` operate on: `cap` ring slots
(`io_uring_queue_init(128, ...)` in `Reactor::new`), of which `pending`
are filled but not yet submitted. -/
structure Ring where
  cap : Nat
  pending : Nat
deriving DecidableEq, Repr

/-- liburing `io_uring_get_sqe`: hands out the next free SQE slot, or NULL
when every slot is filled. -/
def io_uring_get_sqe (r : Ring) : Option Ring :=
  if r.pending < r.cap then some { r with pending := r.pending + 1 } else none

/-- liburing `io_uring_submit` with kernel return value `ret`: a negative
return is a failure leaving the queue as is; otherwise the filled entries
are handed to the kernel and the submission queue drains. -/
def io_uring_submit (r : Ring) (ret : Int) : Ring :=
  if ret < 0 then r else { r with pending := 0 }

/-- runtime.rs `io_uring_get_sqe_submit`: loop { get an SQE; on success
return it; otherwise submit, and if the submit itself fails return the OS
error }. `subs` is the stream of kernel return values for the successive
`io_uring_submit` calls; the stream-exhausted arm is a modelling artifact
(the theorems never reach it). -/
def io_uring_get_sqe_submit (r : Ring) (subs : List Int) : Except Error Ring :=
  match io_uring_get_sqe r with
  | some r2 => .ok r2
  | none =>
    match subs with
    | [] => .error (.Internal "modelling artifact: submit outcome stream exhausted")
    | ret :: rest =>
      if ret < 0 then .error (.Io ret)
      else io_uring_get_sqe_submit (io_uring_submit r ret) rest

/-! ## The async-cancel SQE (runtime.rs `io_uring_cancel`) -/

/-- The SQE fields filled by runtime.rs `io_uring_cancel` (lines 13-33)
that matter to correlation: the opcode, the `addr` field carrying the
target task's raw pointer, and the `user_data` field, which the source
sets to 0. -/
structure CancelSqe where
  opcode : Nat
  fd : Int
  addr : Nat
  user_data : Nat
deriving DecidableEq, Repr

/-- Opcode constant `IORING_OP_ASYNC_CANCEL` (value 14 in the uapi). -/
def IORING_OP_ASYNC_CANCEL : Nat := 14

/-- runtime.rs `io_uring_cancel`: fills an async-cancel SQE whose `addr`
is the target task's pointer and whose own `user_data` is 0. -/
def io_uring_cancel_sqe (taskPtr : Nat) : CancelSqe :=
  { opcode := IORING_OP_ASYNC_CANCEL
    fd := -1
    addr := taskPtr
    user_data := 0 }

/-! ## Reactor loop body (runtime.rs `Reactor::run`) -/

/-- A completion queue entry as read by `Reactor::run`: the correlation
token (`user_data`, a raw task pointer; 0 is the null pointer) and the
kernel result. -/
structure Cqe where
  user_data : Nat
  res : Int
deriving DecidableEq, Repr

/-- What a ready task's `poll` returns (runtime.rs run, lines 355-369). -/
inductive PollOutcome where
  | pending
  | finishedOk
  | finishedErr (e : Error)
deriving DecidableEq, Repr

/-- The environment of one iteration of `Reactor::run`'s loop:
`verbsResult` is `Device::process`'s return value (the source discards
it), `readyTask` is the popped ready task (if any) with its poll outcome,
`submitRet` is `io_uring_submit`'s return value (the source discards it),
`getCqeRet` is `__io_uring_get_cqe`'s return value, and `cqe` is the
completion pointer it produced (`none` models a null pointer). -/
structure RunInputs where
  verbsResult : Except Int Bool
  readyTask : Option (Nat × PollOutcome)
  submitRet : Int
  getCqeRet : Int
  cqe : Option Cqe

/-- Result of one loop iteration: continue with updated live-task map and
newly enqueued task tokens, return `Err(e)` from `run`, or abort — the
`abort` constructor covers both the source's explicit
`panic!("Unexpected task state on uring result ...")` and the undefined
behaviour of `Rc::from_raw` on a `user_data` that is not a live leaked
task pointer (in particular the null pointer 0). -/
inductive StepOutcome where
  | next (tasks : Nat → Option TaskState) (enqueued : List Nat)
  | ret (e : Error)
  | abort

/-- One iteration of `Reactor::run`'s loop (runtime.rs lines 330-408),
over the map `tasks` of live leaked task pointers. In source order:
(1) `self.device.borrow_mut().process()` — result discarded; buffer-wait
wakeups touch only the ready queue; (2) pop a ready task and poll it —
all three poll outcomes `continue` the loop (success and failure are only
printed); (3) otherwise `io_uring_submit` — result discarded — then block
in `__io_uring_get_cqe`: a negative return aborts `run` with the OS
error; a null CQE pointer aborts with `Internal("Got null cqe pointer")`;
otherwise the task is reconstituted from `cqe.user_data` and its state
advanced, and the task is pushed onto the ready queue. -/
def reactorStep (tasks : Nat → Option TaskState) (inp : RunInputs) : StepOutcome :=
  match inp.readyTask with
  | some _ => .next tasks []
  | none =>
    if inp.getCqeRet < 0 then .ret (.Io inp.getCqeRet)
    else
      match inp.cqe with
      | none => .ret (.Internal "Got null cqe pointer")
      | some c =>
        match tasks c.user_data with
        | none => .abort
        | some s =>
          match uringCqeStep c.res s with
          | none => .abort
          | some s2 =>
            .next (fun n => if n = c.user_data then some s2 else tasks n) [c.user_data]

/-- The state the step leaves task `t` in (when the loop continues). -/
def stepTaskState (o : StepOutcome) (t : Nat) : Option TaskState :=
  match o with
  | .next f _ => f t
  | _ => none

/-- The tokens the step pushed onto the ready queue. -/
def stepEnqueued (o : StepOutcome) : List Nat :=
  match o with
  | .next _ l => l
  | _ => []

/-- Whether the step aborts (`panic!` or undefined behaviour). -/
def StepOutcome.isAbort (o : StepOutcome) : Bool :=
  match o with
  | .abort => true
  | _ => false

/-! ## Operation futures and their drop contract (io_uring_util.rs) -/

/-- io_uring_util.rs `IOUringFutureState`. -/
inductive IOUringFutureState where
  | Initial
  | Sent
  | Done
deriving DecidableEq, Repr

/-- The six ring operation futures of io_uring_util.rs. -/
inductive UringOp where
  | accept
  | connect
  | openat
  | readOp
  | writeOp
  | closeOp
deriving DecidableEq, Repr

/-- io_uring_util.rs `impl Drop for Accept` (lines 154-160): `true` when
the drop panics, i.e. exactly when the state is `Sent`. -/
def acceptDropPanics (s : IOUringFutureState) : Bool :=
  match s with
  | .Sent => true
  | _ => false

/-- io_uring_util.rs `impl Drop for Connect` (lines 373-379). -/
def connectDropPanics (s : IOUringFutureState) : Bool :=
  match s with
  | .Sent => true
  | _ => false

/-- io_uring_util.rs `impl Drop for OpenAt` (lines 433-439). -/
def openAtDropPanics (s : IOUringFutureState) : Bool :=
  match s with
  | .Sent => true
  | _ => false

/-- io_uring_util.rs `impl Drop for Read` (lines 321-327). -/
def readDropPanics (s : IOUringFutureState) : Bool :=
  match s with
  | .Sent => true
  | _ => false

/-- io_uring_util.rs `impl Drop for Write` (lines 266-272). -/
def writeDropPanics (s : IOUringFutureState) : Bool :=
  match s with
  | .Sent => true
  | _ => false

/-- io_uring_util.rs `impl Drop for Close` (lines 211-217). -/
def closeDropPanics (s : IOUringFutureState) : Bool :=
  match s with
  | .Sent => true
  | _ => false

/-- Dropping the future of operation `op` in state `s`: whether the drop
glue panics, dispatching to the per-operation `Drop` impl. -/
def dropPanics (op : UringOp) (s : IOUringFutureState) : Bool :=
  match op with
  | .accept => acceptDropPanics s
  | .connect => connectDropPanics s
  | .openat => openAtDropPanics s
  | .readOp => readDropPanics s
  | .writeOp => writeDropPanics s
  | .closeOp => closeDropPanics s

/-! ## VerbsAddr wire record (verbs_util.rs lines 169-176) -/

/-- Byte widths of the fields of
`#[repr(C, packed(1))] struct VerbsAddr { qpn: u32, psn: u32, gid: u128, lid: u16 }`,
in declaration order: u32, u32, u128, u16. -/
def verbsAddrFieldSizes : List Nat := [4, 4, 16, 2]

/-- Size of the packed `VerbsAddr` struct. `repr(C, packed(1))` lays the
fields out in declaration order with alignment 1, so there is no padding
and the size is the sum of the field sizes. -/
def verbsAddrSize : Nat := verbsAddrFieldSizes.sum

/-- Byte offset of each field in the packed layout: the running sum of the
preceding field sizes. -/
def verbsAddrOffsets : List Nat :=
  (verbsAddrFieldSizes.take 0).sum ::
    (verbsAddrFieldSizes.take 1).sum ::
      (verbsAddrFieldSizes.take 2).sum :: [(verbsAddrFieldSizes.take 3).sum]

/-! ## Verbs engine completion dispatch (verbs_util.rs `Device::process`) -/

/-- `ibv_wc.opcode` values dispatched by `Device::process`. -/
inductive WcOpcode where
  | IBV_WC_RECV
  | IBV_WC_SEND
  | other (code : Nat)
deriving DecidableEq, Repr

/-- A verbs work completion as consumed by `Device::process`: the work
request id (a receive-slot index for receives, a leaked task pointer for
sends) and the completion status (0 = success). -/
structure WcEntry where
  wr_id : Nat
  status : Int
  opcode : WcOpcode
deriving DecidableEq, Repr

/-- The engine and connection state a receive or send completion is
supposed to act on: the SRQ receive slots and free-slot stack and the free
buffer pool (`Device`), the recipient QP's received FIFO and parked waiter
(`QueuePair`), the reactor ready queue, and each task's result slot
(`ring_result`; `none` is the `NOT_DONE` sentinel). Buffers and tasks are
identified by tokens. -/
structure EngineState where
  read_slot : List (Option Nat)
  empty_read_slots : List Nat
  free_buffers : List Nat
  qpReceived : List Nat
  qpWaiting : Option Nat
  ready : List Nat
  ringResult : Nat → Option Int

/-- One work-completion dispatch of verbs_util.rs `Device::process`
(lines 522-534), exactly as written: the `IBV_WC_RECV` arm is empty — it
touches nothing; the `IBV_WC_SEND` arm reconstitutes the task from
`wr_id` and stores `w.status as i32` into its result slot — the
ready-queue push on the following line is commented out in the source, so
the task is not enqueued; unknown opcodes are only logged. -/
def processCompletion (st : EngineState) (w : WcEntry) : EngineState :=
  match w.opcode with
  | .IBV_WC_RECV => st
  | .IBV_WC_SEND =>
      { st with ringResult := fun n => if n = w.wr_id then some w.status else st.ringResult n }
  | .other _ => st

/-! ## The verbs send future (verbs.rs `Send::poll`) -/

/-- verbs.rs `SendState`. -/
inductive SendState where
  | Initial
  | Sent
  | Done
deriving DecidableEq, Repr

/-- verbs.rs `Send`: the future holding the buffer being sent. -/
structure SendFuture where
  buffer : Option Nat
  state : SendState
deriving DecidableEq, Repr

/-- What a `Send::poll` call returns. -/
inductive SendPollOut where
  | pending
  | readyOk
  | readyErr (e : Error)
deriving DecidableEq, Repr

/-- The effects of one `Send::poll` call. `pool` is the reactor's verbs
free-buffer list (`Device.free_buffers`); `dropped` is a buffer that was
destroyed (deregistered and freed) by being dropped. -/
structure SendPollResult where
  fut : SendFuture
  ringResult : Option Int
  pool : List Nat
  dropped : Option Nat
  out : SendPollOut

/-- verbs.rs `PutBuffer::poll`: pushes the buffer onto the reactor's free
list (`Reactor::put_verbs_buffer` → `free_buffers.push`). This is what
returning a buffer to the pool would do — but `Send::poll` never runs it:
see `sendPoll`. -/
def putBufferPoll (pool : List Nat) (b : Nat) : List Nat :=
  pool ++ [b]

/-- verbs.rs `Send::poll` (lines 40-73). `ringResult` is the sending
task's result slot (`none` = the `NOT_DONE` sentinel), `postSend` is the
outcome of `QueuePair::send`'s `ibv_post_send` (`none` = posted, `some
errno` = failure). In the Initial arm the slot is reset to `NOT_DONE`
before posting. In every completion arm the source executes
`put_buffer(self.buffer.take().unwrap());` — this only CONSTRUCTS a
`PutBuffer` future, which is dropped at the end of the statement without
ever being polled, so `PutBuffer::poll` never runs: the taken buffer is
dropped (`Buffer::drop` deregisters and frees it) and the pool is left
untouched. The `dropped` field records that destroyed buffer. -/
def sendPoll (f : SendFuture) (ringResult : Option Int) (postSend : Option Int)
    (pool : List Nat) : SendPollResult :=
  match f.state with
  | .Initial =>
    match postSend with
    | some errno =>
        { fut := { buffer := none, state := .Done }
          ringResult := none
          pool := pool
          dropped := f.buffer
          out := .readyErr (.Io errno) }
    | none =>
        { fut := { f with state := .Sent }
          ringResult := none
          pool := pool
          dropped := none
          out := .pending }
  | .Sent =>
    match ringResult with
    | none =>
        { fut := f, ringResult := ringResult, pool := pool, dropped := none, out := .pending }
    | some res =>
      if res ≠ 0 then
        { fut := { buffer := none, state := .Done }
          ringResult := ringResult
          pool := pool
          dropped := f.buffer
          out := .readyErr (.Internal "verbs error") }
      else
        { fut := { buffer := none, state := .Done }
          ringResult := ringResult
          pool := pool
          dropped := f.buffer
          out := .readyOk }
  | .Done =>
      { fut := f
        ringResult := ringResult
        pool := pool
        dropped := none
        out := .readyErr (.Internal "Poll called on done future") }

/-! ## TCP connect (tcp.rs `connect`, lines 116-143) -/

/-- The outcome the operating system would give for an attempt to connect
to one resolved address: `socket()` failing, the `Connect` operation
failing, or a successful connection. -/
inductive NetOutcome where
  | socketFail (errno : Int)
  | connectFail (e : Error)
  | connected
deriving DecidableEq, Repr

/-- tcp.rs `connect`: iterates the resolved addresses, but every branch of
the loop body returns — socket-creation failure returns the OS error, a
`Connect` failure propagates through `?`, and success returns the socket —
so only the first resolved address is ever attempted and the tail of the
list is dead; an empty resolution falls through to
`Err(Error::Internal("Unable to connect"))`. Addresses are tokens;
`outcome` gives the OS behaviour at each address. -/
def tcpConnect : List Nat → (Nat → NetOutcome) → Except Error Nat
  | [], _ => .error (.Internal "Unable to connect")
  | a :: _, outcome =>
    match outcome a with
    | .socketFail errno => .error (.Io errno)
    | .connectFail e => .error e
    | .connected => .ok a

/-! ## Theorems -/

/-- C8: dropping any of the six operation futures (Accept, Connect,
OpenAt, Read, Write, Close) panics exactly when the underlying state is
`Sent` (an SQE was filled but the CQE has not been consumed); dropping in
`Initial` or `Done` does not panic. -/
theorem drop_in_flight_panics :
    ∀ op : UringOp,
      dropPanics op .Sent = true ∧
        dropPanics op .Initial = false ∧ dropPanics op .Done = false := by
  intro op
  cases op <;> exact ⟨rfl, rfl, rfl⟩

/-- C9 counterexample: the packed `VerbsAddr` record is not 30 bytes —
its fields [qpn:4][psn:4][gid:16][lid:2] sum to 26. -/
theorem verbsaddr_size_ne_thirty : verbsAddrSize ≠ 30 ∧ verbsAddrSize = 26 := by
  decide

/-- C9 (amended): the `VerbsAddr` handshake record is a 26-byte packed
structure with no padding, laid out as [qpn:4][psn:4][gid:16][lid:2] at
offsets 0, 4, 8, 24 in host byte order. -/
theorem verbsaddr_packed_layout :
    verbsAddrSize = 26 ∧ verbsAddrOffsets = [0, 4, 8, 24] := by
  decide

/-- C10: `tcp::connect` attempts only the first resolved address — the
result does not depend on the tail of the resolution list, a socket or
connect failure on the first address is returned without trying the rest,
success connects to the first address, and an empty resolution fails with
the Internal "Unable to connect" error. -/
theorem tcp_connect_first_addr_only :
    ∀ (a : Nat) (rest rest2 : List Nat) (outcome : Nat → NetOutcome) (e : Error),
      (tcpConnect (a :: rest) outcome = tcpConnect (a :: rest2) outcome) ∧
        (∀ errno : Int, outcome a = .socketFail errno →
          tcpConnect (a :: rest) outcome = .error (.Io errno)) ∧
        (outcome a = .connectFail e → tcpConnect (a :: rest) outcome = .error e) ∧
        (outcome a = .connected → tcpConnect (a :: rest) outcome = .ok a) ∧
        tcpConnect [] outcome = .error (.Internal "Unable to connect") := by
  intro a rest rest2 outcome e
  refine ⟨rfl, ?_, ?_, ?_, rfl⟩
  · intro errno h
    simp [tcpConnect, h]
  · intro h
    simp [tcpConnect, h]
  · intro h
    simp [tcpConnect, h]

/-- C10 witness: a connect failure on the first of two addresses is
surfaced without trying the second, and the empty resolution yields the
Internal error. -/
theorem tcp_connect_first_addr_only_witness :
    tcpConnect [5, 6] (fun a => if a = 5 then .connectFail .Eof else .connected) =
        .error .Eof ∧
      tcpConnect [] (fun a => if a = 5 then .connectFail .Eof else .connected) =
        .error (.Internal "Unable to connect") :=
  ⟨(tcp_connect_first_addr_only 5 [6] []
        (fun a => if a = 5 then .connectFail .Eof else .connected) .Eof).2.2.1 rfl,
    (tcp_connect_first_addr_only 5 [6] []
        (fun a => if a = 5 then .connectFail .Eof else .connected) .Eof).2.2.2.2⟩

/-- When the submission queue has a free slot, `io_uring_get_sqe_submit`
returns it at once, whatever the submit-outcome stream. -/
theorem get_sqe_submit_of_free (r : Ring) (subs : List Int) (h : r.pending < r.cap) :
    io_uring_get_sqe_submit r subs = .ok { r with pending := r.pending + 1 } := by
  cases subs <;> simp [io_uring_get_sqe_submit, io_uring_get_sqe, h]

/-- C5: on a ring with at least one SQ slot, `io_uring_get_sqe_submit`
either returns an empty SQE or fails with the OS error of the single
submit attempt: the result is already determined after at most one submit
outcome (the tail of the outcome stream is irrelevant — no spinning), and
it is an `ok` slot unless that one submit failed, in which case it is that
submit's OS error. -/
theorem acquire_sqe_terminates :
    ∀ (r : Ring) (ret : Int) (rest : List Int), 1 ≤ r.cap →
      (io_uring_get_sqe_submit r (ret :: rest) = io_uring_get_sqe_submit r [ret]) ∧
        ((∃ r2, io_uring_get_sqe_submit r (ret :: rest) = .ok r2) ∨
          (ret < 0 ∧ io_uring_get_sqe_submit r (ret :: rest) = .error (.Io ret))) := by
  intro r ret rest hcap
  by_cases h : r.pending < r.cap
  · constructor
    · simp [io_uring_get_sqe_submit, io_uring_get_sqe, h]
    · exact Or.inl ⟨{ r with pending := r.pending + 1 }, by
        simp [io_uring_get_sqe_submit, io_uring_get_sqe, h]⟩
  · by_cases hr : ret < 0
    · constructor
      · simp [io_uring_get_sqe_submit, io_uring_get_sqe, h, hr]
      · exact Or.inr ⟨hr, by simp [io_uring_get_sqe_submit, io_uring_get_sqe, h, hr]⟩
    · have h0 : (0 : Nat) < r.cap := hcap
      have hok : ∀ subs : List Int,
          io_uring_get_sqe_submit { r with pending := 0 } subs = .ok { r with pending := 1 } :=
        fun subs => get_sqe_submit_of_free { r with pending := 0 } subs h0
      constructor
      · simp [io_uring_get_sqe_submit, io_uring_get_sqe, io_uring_submit, h, hr, hok]
      · exact Or.inl ⟨{ r with pending := 1 }, by
          simp [io_uring_get_sqe_submit, io_uring_get_sqe, io_uring_submit, h, hr, hok]⟩

/-- C5 witness: on the full 128-slot ring of `Reactor::new` with a
successful submit, an SQE is obtained. -/
theorem acquire_sqe_terminates_witness :
    1 ≤ (Ring.mk 128 128).cap ∧
      ((io_uring_get_sqe_submit ⟨128, 128⟩ [0, 0] = io_uring_get_sqe_submit ⟨128, 128⟩ [0]) ∧
        ((∃ r2, io_uring_get_sqe_submit ⟨128, 128⟩ [0, 0] = .ok r2) ∨
          ((0 : Int) < 0 ∧ io_uring_get_sqe_submit ⟨128, 128⟩ [0, 0] = .error (.Io 0)))) :=
  ⟨by decide, acquire_sqe_terminates ⟨128, 128⟩ 0 [0] (by decide)⟩

/-- C3: one iteration of `Reactor::run` never returns because a popped
computation's poll produced an error — it continues scheduling — and the
only errors the loop body can return from `run` are the blocking CQE wait
failing (the OS error) and a null CQE pointer. -/
theorem run_error_conditions :
    ∀ (tasks : Nat → Option TaskState) (inp : RunInputs),
      (∀ t e2, inp.readyTask = some (t, .finishedErr e2) →
        reactorStep tasks inp = .next tasks []) ∧
        (∀ e, reactorStep tasks inp = .ret e →
          (inp.getCqeRet < 0 ∧ e = .Io inp.getCqeRet) ∨
            (0 ≤ inp.getCqeRet ∧ inp.cqe = none ∧
              e = .Internal "Got null cqe pointer")) := by
  intro tasks inp
  constructor
  · intro t e2 h
    simp [reactorStep, h]
  · intro e h
    cases hrt : inp.readyTask with
    | some v => simp [reactorStep, hrt] at h
    | none =>
      by_cases hlt : inp.getCqeRet < 0
      · left
        simp [reactorStep, hrt, hlt] at h
        exact ⟨hlt, h.symm⟩
      · right
        cases hc : inp.cqe with
        | none =>
          simp [reactorStep, hrt, hlt, hc] at h
          exact ⟨le_of_not_lt hlt, rfl, h.symm⟩
        | some c =>
          cases htask : tasks c.user_data with
          | none => simp [reactorStep, hrt, hlt, hc, htask] at h
          | some s =>
            cases hstep : uringCqeStep c.res s with
            | none => simp [reactorStep, hrt, hlt, hc, htask, hstep] at h
            | some s2 => simp [reactorStep, hrt, hlt, hc, htask, hstep] at h

/-- C3 witness: a failed poll continues the loop, and a failed CQE wait
returns its OS error. -/
theorem run_error_conditions_witness :
    reactorStep (fun _ => none)
        { verbsResult := .ok false, readyTask := some (7, .finishedErr .Eof),
          submitRet := 0, getCqeRet := 0, cqe := none } =
        .next (fun _ => none) [] ∧
      (((-11 : Int) < 0 ∧ (Error.Io (-11) : Error) = .Io (-11)) ∨
        ((0 : Int) ≤ (-11 : Int) ∧ (none : Option Cqe) = none ∧
          (Error.Io (-11) : Error) = .Internal "Got null cqe pointer")) :=
  ⟨(run_error_conditions (fun _ => none)
      { verbsResult := .ok false, readyTask := some (7, .finishedErr .Eof),
        submitRet := 0, getCqeRet := 0, cqe := none }).1 7 .Eof rfl,
    (run_error_conditions (fun _ => none)
        { verbsResult := .ok false, readyTask := none,
          submitRet := 0, getCqeRet := -11, cqe := none }).2 (.Io (-11)) rfl⟩

/-- C4: the async-cancel SQE emitted by `io_uring_cancel` carries
`user_data = 0`, yet `Reactor::run` does not ignore the cancel
operation's own CQE — it reconstitutes a task from that null `user_data`
and dereferences it (undefined behaviour, modelled as the aborting
outcome) instead of skipping it; the cancelled original operation's CQE,
by contrast, is absorbed into the terminal `Cancled` state. -/
theorem async_cancel_cqe_not_ignored :
    (io_uring_cancel_sqe 42).user_data = 0 ∧
      (reactorStep (fun n => if n = 42 then some .UringCanceling else none)
          { verbsResult := .ok false, readyTask := none, submitRet := 0, getCqeRet := 0,
            cqe := some { user_data := (io_uring_cancel_sqe 42).user_data, res := 0 } }).isAbort =
        true ∧
      stepTaskState
          (reactorStep (fun n => if n = 42 then some .UringCanceling else none)
            { verbsResult := .ok false, readyTask := none, submitRet := 0, getCqeRet := 0,
              cqe := some { user_data := 42, res := -125 } }) 42 =
        some .Cancled ∧
      stepEnqueued
          (reactorStep (fun n => if n = 42 then some .UringCanceling else none)
            { verbsResult := .ok false, readyTask := none, submitRet := 0, getCqeRet := 0,
              cqe := some { user_data := 42, res := -125 } }) =
        [42] := by
  refine ⟨rfl, ?_, ?_, ?_⟩ <;>
    simp [reactorStep, io_uring_cancel_sqe, IORING_OP_ASYNC_CANCEL, uringCqeStep,
      stepTaskState, stepEnqueued, StepOutcome.isAbort]

/-- C2: `Device::process` does NOT act on receive completions — the
`IBV_WC_RECV` arm is empty, so the engine state is returned unchanged: no
slot is popped, no buffer is moved into the recipient QP's received FIFO,
no waiter is woken, and no slot index is pushed back on the free stack. -/
theorem recv_completion_ignored :
    ∀ (st : EngineState) (w : WcEntry), w.opcode = .IBV_WC_RECV →
      processCompletion st w = st := by
  intro st w h
  obtain ⟨id, stat, op⟩ := w
  cases h
  rfl

/-- C2 witness: a receive completion for occupied slot 0 while a waiter is
parked leaves everything exactly as it was. -/
theorem recv_completion_ignored_witness :
    processCompletion ⟨[some 7], [], [], [], some 3, [], fun _ => none⟩
        ⟨0, 0, .IBV_WC_RECV⟩ =
      ⟨[some 7], [], [], [], some 3, [], fun _ => none⟩ :=
  recv_completion_ignored ⟨[some 7], [], [], [], some 3, [], fun _ => none⟩
    ⟨0, 0, .IBV_WC_RECV⟩ rfl

/-- C7: on a verbs send completion `Device::process` only stores the
status into the sending task's result slot — the ready queue is untouched
(the wake push is commented out in the source) and the free-buffer pool
is untouched; and when the sender is later polled in the `Sent` state with
a zero status, the pool is again untouched while the buffer is destroyed
(the `PutBuffer` future is dropped un-polled) rather than returned. -/
theorem send_completion_no_wake_no_pool :
    (∀ (st : EngineState) (w : WcEntry), w.opcode = .IBV_WC_SEND →
      (processCompletion st w).ready = st.ready ∧
        (processCompletion st w).free_buffers = st.free_buffers ∧
        (processCompletion st w).qpReceived = st.qpReceived ∧
        (processCompletion st w).ringResult w.wr_id = some w.status) ∧
      ∀ (b : Nat) (pool : List Nat),
        (sendPoll ⟨some b, .Sent⟩ (some 0) none pool).out = .readyOk ∧
          (sendPoll ⟨some b, .Sent⟩ (some 0) none pool).pool = pool ∧
          (sendPoll ⟨some b, .Sent⟩ (some 0) none pool).dropped = some b ∧
          putBufferPoll pool b = pool ++ [b] := by
  constructor
  · intro st w h
    obtain ⟨id, stat, op⟩ := w
    cases h
    refine ⟨rfl, rfl, rfl, ?_⟩
    simp [processCompletion]
  · intro b pool
    refine ⟨?_, ?_, ?_, rfl⟩ <;> simp [sendPoll]

/-- C7 witness: a zero-status send completion for task 5 stores 0 in its
result slot without waking anything, and the subsequent poll destroys
buffer 9 while leaving the empty pool empty. -/
theorem send_completion_no_wake_no_pool_witness :
    ((processCompletion ⟨[], [], [], [], none, [], fun _ => none⟩ ⟨5, 0, .IBV_WC_SEND⟩).ready =
          ([] : List Nat) ∧
        (processCompletion ⟨[], [], [], [], none, [], fun _ => none⟩
              ⟨5, 0, .IBV_WC_SEND⟩).free_buffers =
          ([] : List Nat) ∧
        (processCompletion ⟨[], [], [], [], none, [], fun _ => none⟩
              ⟨5, 0, .IBV_WC_SEND⟩).qpReceived =
          ([] : List Nat) ∧
        (processCompletion ⟨[], [], [], [], none, [], fun _ => none⟩
              ⟨5, 0, .IBV_WC_SEND⟩).ringResult 5 =
          some 0) ∧
      ((sendPoll ⟨some 9, .Sent⟩ (some 0) none []).out = .readyOk ∧
        (sendPoll ⟨some 9, .Sent⟩ (some 0) none []).pool = [] ∧
        (sendPoll ⟨some 9, .Sent⟩ (some 0) none []).dropped = some 9 ∧
        putBufferPoll [] 9 = [] ++ [9]) :=
  ⟨send_completion_no_wake_no_pool.1 ⟨[], [], [], [], none, [], fun _ => none⟩
      ⟨5, 0, .IBV_WC_SEND⟩ rfl,
    send_completion_no_wake_no_pool.2 9 []⟩

/-- C1: once a cancel or timeout request has been applied to a task, its
state lies in the absorbed set {Cancled, Timeouted, UringCanceling,
UringTimeouting}; that set is closed under the reactor's CQE transitions
(even when the original operation's completion races in, the `UringDone`
result is discarded by `Task::cancel` / absorbed by the CQE dispatch);
no state in the set is ever observed as a success — it is observed as
Cancelled or Timeout at once, or becomes so on the very next CQE; and
conversely a state observed as a success is not in the set and is not
observed as Cancelled. -/
theorem cancel_never_success :
    ∀ (s s2 : TaskState) (ok : Bool),
      ((cancelStep ok s = some s2 ∨ timeoutStep ok s = some s2) →
        isCancelRequested s2 = true) ∧
        (isCancelRequested s = true →
          (∀ res s3, uringCqeStep res s = some s3 → isCancelRequested s3 = true) ∧
            (∀ r, observeState s ≠ .success r) ∧
            (observeState s = .cancelled ∨ observeState s = .timedOut ∨
              ∀ res, ∃ s3, uringCqeStep res s = some s3 ∧
                (observeState s3 = .cancelled ∨ observeState s3 = .timedOut))) ∧
        (∀ r, observeState s = .success r →
          isCancelRequested s = false ∧ observeState s ≠ .cancelled) := by
  intro s s2 ok
  refine ⟨?_, ?_, ?_⟩
  · intro h
    cases s <;> cases ok <;>
      rcases h with h | h <;>
        simp [cancelStep, timeoutStep] at h <;>
          simp [← h, isCancelRequested]
  · intro h
    cases s <;> simp [isCancelRequested] at h <;>
      refine ⟨?_, ?_, ?_⟩ <;>
        simp [uringCqeStep, observeState, isCancelRequested]
  · intro r h
    cases s with
    | Inital => simp [observeState] at h
    | Cancled => simp [observeState] at h
    | Timeouted => simp [observeState] at h
    | UringWaiting => simp [observeState] at h
    | UringCanceling => simp [observeState] at h
    | UringTimeouting => simp [observeState] at h
    | UringDone res =>
      by_cases hlt : res < 0
      · simp [observeState, hlt] at h
      · exact ⟨rfl, by simp [observeState, hlt]⟩

/-- C1 witness: cancelling a task whose operation already completed
(`UringDone 5`) moves it to `Cancled`, which is in the absorbed set and is
never observed as a success. -/
theorem cancel_never_success_witness :
    isCancelRequested .Cancled = true ∧ observeState .Cancled ≠ .success 5 :=
  ⟨(cancel_never_success (.UringDone 5) .Cancled true).1 (Or.inl rfl),
    ((cancel_never_success .Cancled .Cancled true).2.1 rfl).2.1 5⟩

/-- The empty queue is well formed. -/
theorem wellFormed_init : TaskQueue.init.wellFormed := by
  refine ⟨?_, ?_, ?_⟩ <;> intro u hu <;> simp [TaskQueue.init] at hu

/-- `push` keeps every band homogeneous in its own priority. -/
theorem wellFormed_push (q : TaskQueue) (t : QTask) (h : q.wellFormed) :
    (q.push t).wellFormed := by
  obtain ⟨h0, h1, h2⟩ := h
  cases hp : t.priority with
  | High =>
    simp only [TaskQueue.wellFormed, TaskQueue.push, hp]
    refine ⟨?_, h1, h2⟩
    intro u hu
    rcases List.mem_append.mp hu with h | h
    · exact h0 u h
    · simp at h
      subst h
      exact hp
  | Normal =>
    simp only [TaskQueue.wellFormed, TaskQueue.push, hp]
    refine ⟨h0, ?_, h2⟩
    intro u hu
    rcases List.mem_append.mp hu with h | h
    · exact h1 u h
    · simp at h
      subst h
      exact hp
  | Low =>
    simp only [TaskQueue.wellFormed, TaskQueue.push, hp]
    refine ⟨h0, h1, ?_⟩
    intro u hu
    rcases List.mem_append.mp hu with h | h
    · exact h2 u h
    · simp at h
      subst h
      exact hp

/-- Shape of a successful `pop` on a well-formed queue: the popped task is
the head of the first non-empty band — which is the band of its own
priority — and the other bands are untouched. -/
theorem pop_shape (q : TaskQueue) (t : QTask) (q' : TaskQueue)
    (hwf : q.wellFormed) (h : q.pop = some (t, q')) :
    (t.priority = .High ∧ q.q0 = t :: q'.q0 ∧ q'.q1 = q.q1 ∧ q'.q2 = q.q2) ∨
      (t.priority = .Normal ∧ q.q0 = [] ∧ q'.q0 = [] ∧ q.q1 = t :: q'.q1 ∧ q'.q2 = q.q2) ∨
      (t.priority = .Low ∧ q.q0 = [] ∧ q.q1 = [] ∧ q'.q0 = [] ∧ q'.q1 = [] ∧
        q.q2 = t :: q'.q2) := by
  obtain ⟨ha, hb, hc⟩ := hwf
  obtain ⟨q0, q1, q2⟩ := q
  cases q0 with
  | cons x rest =>
    simp only [TaskQueue.pop] at h
    injection h with h'
    injection h' with h1 h2
    subst h1
    subst h2
    exact Or.inl ⟨ha x (by simp), rfl, rfl, rfl⟩
  | nil =>
    cases q1 with
    | cons x rest =>
      simp only [TaskQueue.pop] at h
      injection h with h'
      injection h' with h1 h2
      subst h1
      subst h2
      exact Or.inr (Or.inl ⟨hb x (by simp), rfl, rfl, rfl, rfl⟩)
    | nil =>
      cases q2 with
      | cons x rest =>
        simp only [TaskQueue.pop] at h
        injection h with h'
        injection h' with h1 h2
        subst h1
        subst h2
        exact Or.inr (Or.inr ⟨hc x (by simp), rfl, rfl, rfl, rfl, rfl⟩)
      | nil => simp [TaskQueue.pop] at h

/-- `pop` keeps the queue well formed. -/
theorem wellFormed_pop (q : TaskQueue) (t : QTask) (q' : TaskQueue)
    (hwf : q.wellFormed) (h : q.pop = some (t, q')) : q'.wellFormed := by
  obtain ⟨ha, hb, hc⟩ := hwf
  rcases pop_shape q t q' ⟨ha, hb, hc⟩ h with
      ⟨_, h2, h3, h4⟩ | ⟨_, _, h3, h4, h5⟩ | ⟨_, _, _, h4, h5, h6⟩
  · refine ⟨?_, ?_, ?_⟩
    · intro u hu
      exact ha u (by rw [h2]; exact List.mem_cons_of_mem t hu)
    · intro u hu
      exact hb u (h3 ▸ hu)
    · intro u hu
      exact hc u (h4 ▸ hu)
  · refine ⟨?_, ?_, ?_⟩
    · intro u hu
      rw [h3] at hu
      simp at hu
    · intro u hu
      exact hb u (by rw [h4]; exact List.mem_cons_of_mem t hu)
    · intro u hu
      exact hc u (h5 ▸ hu)
  · refine ⟨?_, ?_, ?_⟩
    · intro u hu
      rw [h4] at hu
      simp at hu
    · intro u hu
      rw [h5] at hu
      simp at hu
    · intro u hu
      exact hc u (by rw [h6]; exact List.mem_cons_of_mem t hu)

/-- A successful `pop` on a well-formed queue removes the head of the
popped task's own band and leaves every other band unchanged. -/
theorem pop_band (q : TaskQueue) (t : QTask) (q' : TaskQueue)
    (hwf : q.wellFormed) (h : q.pop = some (t, q')) :
    q.band t.priority = t :: q'.band t.priority ∧
      ∀ p : Priority, p ≠ t.priority → q.band p = q'.band p := by
  rcases pop_shape q t q' hwf h with
      ⟨h1, h2, h3, h4⟩ | ⟨h1, h2, h3, h4, h5⟩ | ⟨h1, h2, h3, h4, h5, h6⟩
  · refine ⟨by rw [h1]; exact h2, ?_⟩
    intro p hp
    rw [h1] at hp
    cases p with
    | High => exact absurd rfl hp
    | Normal => simp [TaskQueue.band, h3]
    | Low => simp [TaskQueue.band, h4]
  · refine ⟨by rw [h1]; exact h4, ?_⟩
    intro p hp
    rw [h1] at hp
    cases p with
    | High => simp [TaskQueue.band, h2, h3]
    | Normal => exact absurd rfl hp
    | Low => simp [TaskQueue.band, h5]
  · refine ⟨by rw [h1]; exact h6, ?_⟩
    intro p hp
    rw [h1] at hp
    cases p with
    | High => simp [TaskQueue.band, h2, h4]
    | Normal => simp [TaskQueue.band, h3, h5]
    | Low => exact absurd rfl hp

/-- On a well-formed queue, `pop` never returns a task of some priority
while a strictly higher-priority band is non-empty. -/
theorem pop_priority (q : TaskQueue) (t : QTask) (q' : TaskQueue)
    (hwf : q.wellFormed) (h : q.pop = some (t, q')) :
    ∀ p : Priority, p.idx < t.priority.idx → q.band p = [] := by
  intro p hp
  rcases pop_shape q t q' hwf h with
      ⟨h1, _, _, _⟩ | ⟨h1, h2, _, _, _⟩ | ⟨h1, h2, h3, _, _, _⟩
  · rw [h1] at hp
    cases p <;> simp [Priority.idx] at hp
  · rw [h1] at hp
    cases p with
    | High => simpa [TaskQueue.band] using h2
    | Normal => simp [Priority.idx] at hp
    | Low => simp [Priority.idx] at hp
  · rw [h1] at hp
    cases p with
    | High => simpa [TaskQueue.band] using h2
    | Normal => simpa [TaskQueue.band] using h3
    | Low => simp [Priority.idx] at hp

/-- The band a push lands in is its task's own band, appended at the back. -/
theorem band_push_same (q : TaskQueue) (t : QTask) :
    (q.push t).band t.priority = q.band t.priority ++ [t] := by
  cases hp : t.priority <;> simp [TaskQueue.push, TaskQueue.band, hp]

/-- A push leaves every other band unchanged. -/
theorem band_push_other (q : TaskQueue) (t : QTask) (p : Priority)
    (h : t.priority ≠ p) : (q.push t).band p = q.band p := by
  cases hq : t.priority <;> cases p <;>
    simp [TaskQueue.push, TaskQueue.band, hq] <;> simp [hq] at h

/-- Trace invariant of the ready queue: running any operation sequence on
a well-formed queue keeps it well formed and, for each priority band, the
tasks popped from that band followed by the tasks still queued in it are
exactly the tasks initially queued followed by the tasks pushed. -/
theorem runQOps_band (ops : List QOp) :
    ∀ q : TaskQueue, q.wellFormed →
      (runQOps q ops).1.wellFormed ∧
        ∀ p : Priority,
          popsOf p (runQOps q ops).2 ++ (runQOps q ops).1.band p =
            q.band p ++ pushedOf p ops := by
  induction ops with
  | nil =>
    intro q hwf
    exact ⟨hwf, fun p => by simp [runQOps, pushedOf, popsOf]⟩
  | cons o rest ih =>
    intro q hwf
    cases o with
    | push t =>
      have hrun : runQOps q (.push t :: rest) = runQOps (q.push t) rest := rfl
      have IH := ih (q.push t) (wellFormed_push q t hwf)
      refine ⟨hrun ▸ IH.1, ?_⟩
      intro p
      rw [hrun, IH.2 p]
      by_cases hp : t.priority = p
      · subst hp
        rw [band_push_same]
        simp [pushedOf, List.append_assoc]
      · rw [band_push_other q t p hp]
        simp [pushedOf, hp]
    | pop =>
      cases hp : q.pop with
      | none =>
        have hrun : runQOps q (.pop :: rest) = runQOps q rest := by
          simp [runQOps, hp]
        have IH := ih q hwf
        refine ⟨hrun ▸ IH.1, ?_⟩
        intro p
        rw [hrun]
        simpa [pushedOf] using IH.2 p
      | some v =>
        obtain ⟨t, q2⟩ := v
        have hrun : runQOps q (.pop :: rest) =
            ((runQOps q2 rest).1, t :: (runQOps q2 rest).2) := by
          simp [runQOps, hp]
        have hb := pop_band q t q2 hwf hp
        have IH := ih q2 (wellFormed_pop q t q2 hwf hp)
        refine ⟨by rw [hrun]; exact IH.1, ?_⟩
        intro p
        rw [hrun]
        show popsOf p (t :: (runQOps q2 rest).2) ++ (runQOps q2 rest).1.band p =
          q.band p ++ pushedOf p (.pop :: rest)
        by_cases htp : t.priority = p
        · subst htp
          have : popsOf t.priority (t :: (runQOps q2 rest).2) =
              t :: popsOf t.priority (runQOps q2 rest).2 := by
            simp [popsOf]
          rw [this]
          have : q.band t.priority = t :: q2.band t.priority := hb.1
          rw [this]
          simp only [pushedOf, List.cons_append]
          rw [IH.2 t.priority]
        · have : popsOf p (t :: (runQOps q2 rest).2) =
              popsOf p (runQOps q2 rest).2 := by
            simp [popsOf, htp]
          rw [this]
          have : q.band p = q2.band p := hb.2 p (fun hh => htp hh.symm)
          rw [this]
          simpa [pushedOf] using IH.2 p

/-- Each band of the empty queue is empty. -/
theorem init_band (p : Priority) : TaskQueue.init.band p = [] := by
  cases p <;> rfl

/-- C6: for every sequence of pushes and pops run from the empty ready
queue, the tasks popped from any priority band are, in order, an initial
segment of the tasks pushed to that band (FIFO within a band), and a pop
on the resulting queue never returns a task while a strictly
higher-priority band is non-empty (so no Low task is returned while a
High or Normal task is enqueued). -/
theorem task_queue_priority_fifo :
    ∀ ops : List QOp,
      (∀ p : Priority,
        popsOf p (runQOps TaskQueue.init ops).2 =
          (pushedOf p ops).take (popsOf p (runQOps TaskQueue.init ops).2).length) ∧
        ∀ t q2, (runQOps TaskQueue.init ops).1.pop = some (t, q2) →
          ∀ p : Priority, p.idx < t.priority.idx →
            (runQOps TaskQueue.init ops).1.band p = [] := by
  intro ops
  have h := runQOps_band ops TaskQueue.init wellFormed_init
  constructor
  · intro p
    have h3 : popsOf p (runQOps TaskQueue.init ops).2 ++
        (runQOps TaskQueue.init ops).1.band p = pushedOf p ops := by
      rw [h.2 p, init_band]
      simp
    rw [← h3, List.take_left]
  · intro t q2 hpop p hlt
    exact pop_priority _ t q2 h.1 hpop p hlt

/-- C6 witness: after pushing a Low task then a High task, the pop
returned the High task (an initial segment of the High pushes), and a pop
of the remaining queue returns the Low task only because the High band is
empty. -/
theorem task_queue_priority_fifo_witness :
    popsOf .High (runQOps TaskQueue.init
          [.push ⟨1, .Low⟩, .push ⟨2, .High⟩, .pop]).2 =
        (pushedOf .High [.push ⟨1, .Low⟩, .push ⟨2, .High⟩, .pop]).take
          (popsOf .High (runQOps TaskQueue.init
            [.push ⟨1, .Low⟩, .push ⟨2, .High⟩, .pop]).2).length ∧
      (runQOps TaskQueue.init [.push ⟨1, .Low⟩, .push ⟨2, .High⟩, .pop]).1.band .High = [] :=
  ⟨(task_queue_priority_fifo [.push ⟨1, .Low⟩, .push ⟨2, .High⟩, .pop]).1 .High,
    (task_queue_priority_fifo [.push ⟨1, .Low⟩, .push ⟨2, .High⟩, .pop]).2
      ⟨1, .Low⟩ ⟨[], [], []⟩ (by decide) .High (by decide)⟩

end Agrippa
